import Mathlib

/-!
Verification of the structured-response extraction loop and memory/scaffolding
protocol of `CollaboratorAgent` (src/collaborator_agent.py), together with the
relevant caller code in src/full_human_study.py.

Modelling conventions:
* Python dict-or-string values produced by `json_repair.repair_json(...,
  return_objects=True)` are modelled by `Repaired`; the field values that the
  program reads are all free text, so object values are modelled as strings.
* The external generator (`litellm.completion`), the external `json_repair`
  library, and the prompt templates imported from `prompts.py` (a module that
  is not part of the core source) are opaque parameters collected in `GenCtx`.
  The generator is an oracle indexed by the number of generator calls made so
  far; every function also returns the chronological list of message lists
  passed to the generator, so that call counts and call contents can be stated.
* Python exceptions are modelled with `Except PyErr`; `None` results are
  `Option.none`.
-/

namespace CollabStudy

/-- Python exceptions that the modelled code can raise. -/
inductive PyErr where
  | typeError
  | indexError
  | keyError
  | exn (msg : String)
deriving Repr, DecidableEq

/-- A chat message: a Python dict with `role` and `content` entries. -/
structure Message where
  role : String
  content : String
deriving Repr, DecidableEq

abbrev Conversation := List Message

/-- Result of `repair_json(raw, return_objects=True)`: either a mapping from
string keys to (textual) values, or a plain Python string. -/
inductive Repaired where
  | obj (entries : List (String × String))
  | str (s : String)
deriving Repr, DecidableEq

/-- Test `beginsWith n h`: whether the character list `n` starts the list `h`. -/
def beginsWith : List Char → List Char → Bool
  | [], _ => true
  | _ :: _, [] => false
  | n :: ns, h :: hs => n == h && beginsWith ns hs

/-- Test `hasSub n h`: whether `n` occurs contiguously inside `h`. -/
def hasSub (needle : List Char) : List Char → Bool
  | [] => beginsWith needle []
  | h :: hs => beginsWith needle (h :: hs) || hasSub needle hs

/-- Python substring test `needle in hay` for strings. -/
def pySubstr (needle hay : String) : Bool :=
  hasSub needle.toList hay.toList

/-- Python membership `key in processed`: key lookup on a dict, substring
containment on a string. -/
def pyIn (key : String) : Repaired → Bool
  | .obj entries => entries.any (fun e => e.1 == key)
  | .str s => pySubstr key s

/-- Python indexing `processed[key]`: dict lookup (KeyError when absent),
TypeError on a string. -/
def pyGetItem : Repaired → String → Except PyErr String
  | .obj entries, k =>
    match entries.lookup k with
    | some v => .ok v
    | none => .error .keyError
  | .str _, _ => .error .typeError

/-- Python truthiness of a repaired value: empty dicts and empty strings are
falsy. -/
def pyTruthy : Repaired → Bool
  | .obj entries => !entries.isEmpty
  | .str s => !(s == "")

/-- The missing-key computation shared by all three retry loops:
`[key for key in required_keys if key not in processed]`. -/
def missingKeys (required : List String) (processed : Repaired) : List String :=
  required.filter (fun key => !(pyIn key processed))

/-- Python f-string rendering of a value that may be `None`. -/
def pyFormatOpt : Option String → String
  | none => "None"
  | some s => s

/-- Python `str.capitalize()`: first character upper-cased, rest lower-cased. -/
def pyCapitalize (s : String) : String :=
  match s.toList with
  | [] => ""
  | c :: cs => String.mk (c.toUpper :: cs.map Char.toLower)

/-- Embedding of `CollaboratorAgent.get_conversation_string`. -/
def getConversationString (messages : Conversation) : String :=
  String.intercalate "\n"
    (messages.map (fun m => pyCapitalize m.role ++ ": " ++ m.content))

/-- Opaque external collaborators: the generator oracle (indexed by the number
of generator calls made so far), the `json_repair` library, and the prompt
templates imported from `prompts.py` (not part of the core source). -/
structure GenCtx where
  gen : Nat → Except PyErr String
  repairJson : String → Repaired
  properScaffoldingPromptT : String → String → String
  updateAgentNotesPromptT : String → String → String

/-- The fields of `CollaboratorAgent.__init__` that the modelled methods read.
`system_prompt` is kept opaque: it is rendered from templates in `prompts.py`. -/
structure CollaboratorAgent where
  num_retries : Nat := 10
  agent_notes : Option String := none
  with_scaffolding : Bool := false
  with_proper_scaffolding : Bool := false
  system_prompt : String := ""
deriving Repr, DecidableEq

/-- The fixed injection instruction of raw-mode scaffolding
(src/collaborator_agent.py line 49). -/
def rawNotesInstr : String :=
  "Remember, you have been taking notes throughout past conversations about user preferences. Use whatever is relevant in these notes to guide your response:\n"

/-- The injection instruction of model-mediated scaffolding
(src/collaborator_agent.py line 66). -/
def properNotesInstr : String :=
  "Remember, you have been taking notes throughout past conversations about user preferences. Use these notes to guide your response:\n"

/-- The inner retry loop of `add_scaffolding_to_conversation` (proper mode,
lines 56-68).  When the `for` loop exhausts its budget, the Python function
falls off the end and implicitly returns `None`, modelled by `.ok none`. -/
def scaffoldRetry (a : CollaboratorAgent) (ctx : GenCtx) (smsgs : Conversation)
    (messages : Conversation) (calls : List Conversation) :
    Nat → Except PyErr (Option Conversation) × List Conversation
  | 0 => (.ok none, calls)
  | fuel + 1 =>
    let calls' := calls ++ [smsgs]
    match ctx.gen calls.length with
    | .error e => (.error e, calls')
    | .ok raw =>
      let processed := ctx.repairJson raw
      if !(missingKeys ["reasoning", "relevant_notes"] processed).isEmpty then
        scaffoldRetry a ctx smsgs messages calls' fuel
      else
        match pyGetItem processed "relevant_notes" with
        | .error e => (.error e, calls')
        | .ok scaffolded_notes =>
          match messages with
          | [] => (.error .indexError, calls')
          | m :: rest =>
            (.ok (some ({ m with
                content := properNotesInstr ++ scaffolded_notes ++ m.content } :: rest)),
              calls')

/-- Embedding of `CollaboratorAgent.add_scaffolding_to_conversation` (lines 47-68). -/
def addScaffoldingToConversation (a : CollaboratorAgent) (ctx : GenCtx)
    (messages : Conversation) (calls : List Conversation) :
    Except PyErr (Option Conversation) × List Conversation :=
  if a.with_proper_scaffolding = false then
    match messages with
    | [] => (.error .indexError, calls)
    | m :: rest =>
      (.ok (some ({ m with
          content := rawNotesInstr ++ pyFormatOpt a.agent_notes ++ m.content } :: rest)),
        calls)
  else
    let conversation_str := getConversationString messages
    let prompt := ctx.properScaffoldingPromptT conversation_str (pyFormatOpt a.agent_notes)
    scaffoldRetry a ctx [⟨"user", prompt⟩] messages calls a.num_retries

/-- The retry loop of `generate_collaborator_response` (lines 72-88).  Note
that the loop body has no `try`/`except`: a generator error propagates out.
When scaffolding returned `None` (proper-mode exhaustion), the statement
`[system_message] + None` raises a `TypeError`. -/
def genLoop (a : CollaboratorAgent) (ctx : GenCtx) (conversation : Conversation)
    (calls : List Conversation) :
    Nat → Except PyErr (Option Repaired) × List Conversation
  | 0 => (.ok none, calls)
  | fuel + 1 =>
    match (if a.with_scaffolding then addScaffoldingToConversation a ctx conversation calls
           else (.ok (some conversation), calls)) with
    | (.error e, cs) => (.error e, cs)
    | (.ok none, cs) => (.error .typeError, cs)
    | (.ok (some conv), cs) =>
      let messages : Conversation := ⟨"system", a.system_prompt⟩ :: conv
      let cs' := cs ++ [messages]
      match ctx.gen cs.length with
      | .error e => (.error e, cs')
      | .ok raw =>
        let processed := ctx.repairJson raw
        if (missingKeys ["reasoning", "response"] processed).isEmpty then
          (.ok (some processed), cs')
        else
          genLoop a ctx conv cs' fuel

/-- Embedding of `CollaboratorAgent.generate_collaborator_response` (lines 70-88).  The
initial `copy.deepcopy` is the identity on values; aliasing is studied
separately in the heap model below. -/
def generateCollaboratorResponse (a : CollaboratorAgent) (ctx : GenCtx)
    (conversation : Conversation) :
    Except PyErr (Option Repaired) × List Conversation :=
  genLoop a ctx conversation [] a.num_retries

/-- The retry loop of `update_agent_notes` (lines 94-110).  The whole body is
wrapped in `try`/`except Exception`, so a generator error is printed and the
loop moves on to the next attempt. -/
def updateLoop (a : CollaboratorAgent) (ctx : GenCtx) (msgs : Conversation)
    (calls : List Conversation) :
    Nat → Except PyErr (Option Repaired) × List Conversation
  | 0 => (.ok none, calls)
  | fuel + 1 =>
    let calls' := calls ++ [msgs]
    match ctx.gen calls.length with
    | .error _ => updateLoop a ctx msgs calls' fuel
    | .ok raw =>
      let processed := ctx.repairJson raw
      if (missingKeys ["user_preferences_reasoning", "agent_notes"] processed).isEmpty then
        (.ok (some processed), calls')
      else
        updateLoop a ctx msgs calls' fuel

/-- Embedding of `CollaboratorAgent.update_agent_notes` (lines 90-110). -/
def updateAgentNotes (a : CollaboratorAgent) (ctx : GenCtx)
    (agent_notes : String) (conversation : Conversation) :
    Except PyErr (Option Repaired) × List Conversation :=
  let conversation_str := getConversationString conversation
  let prompt := ctx.updateAgentNotesPromptT agent_notes conversation_str
  updateLoop a ctx [⟨"user", prompt⟩] [] a.num_retries

/-- The fallback message of `show_study_interface`
(src/full_human_study.py line 376). -/
def apologyText : String :=
  "I apologize, but I\x27m having trouble generating a response. Could you please try rephrasing your question?"

/-- The result handling of `show_study_interface` (src/full_human_study.py
lines 373-376): `result["response"]` when `result and "response" in result`,
otherwise the fixed apology. -/
def callerResponseText (result : Option Repaired) : Except PyErr String :=
  match result with
  | none => .ok apologyText
  | some r =>
    if pyTruthy r && pyIn "response" r then pyGetItem r "response"
    else .ok apologyText

/-- The notes seed used by `show_survey_interface` on a first session
(src/full_human_study.py line 488). -/
def initialNotesText : String := "Initial notes: No preferences learned yet."

/-- The notes-update step of `show_survey_interface` (src/full_human_study.py
lines 484-494): choose the notes argument by truthiness of the stored notes
(initialised to `""`), call `update_agent_notes`, and overwrite the stored
notes only when the result is truthy and contains `agent_notes`. -/
def surveyNotesStep (a : CollaboratorAgent) (ctx : GenCtx) (stored : String)
    (conversation : Conversation) : Except PyErr String :=
  let result :=
    if stored == "" then (updateAgentNotes a ctx initialNotesText conversation).1
    else (updateAgentNotes a ctx stored conversation).1
  match result with
  | .error e => .error e
  | .ok none => .ok stored
  | .ok (some r) =>
    if pyTruthy r && pyIn "agent_notes" r then
      match pyGetItem r "agent_notes" with
      | .ok v => .ok v
      | .error e => .error e
    else .ok stored

/-!
Heap model.  To state the frame property of `copy.deepcopy` (claim C7) the
aliasing structure of the Python code must be visible, so here the message
dicts of a conversation live in a heap of mutable cells and a conversation
held by the caller is a list of cell addresses.  Only the caller's message
dicts and their deep copies need cells: every other message list built by the
code is freshly allocated and never mutated, so it stays a value.  The
functions below mirror src/collaborator_agent.py statement by statement;
`messages[0]["content"] = ...` becomes a `heapSet` at the first address. -/

abbrev Heap := List Message

abbrev ConvRef := List Nat

/-- Read the message object stored at address `i`. -/
def heapGet (h : Heap) (i : Nat) : Message :=
  h.getD i ⟨"", ""⟩

/-- Overwrite the message object stored at address `i`. -/
def heapSet (h : Heap) (i : Nat) (m : Message) : Heap :=
  h.set i m

/-- The value of a conversation reference: the referenced message objects. -/
def derefConv (h : Heap) (r : ConvRef) : Conversation :=
  r.map (heapGet h)

/-- Embedding of `copy.deepcopy(conversation)`: allocate fresh cells holding copies of the
referenced messages and return the new addresses. -/
def pyDeepcopy (h : Heap) (r : ConvRef) : Heap × ConvRef :=
  (h ++ derefConv h r, List.range' h.length r.length)

/-- Heap version of the inner retry loop of `add_scaffolding_to_conversation`
(proper mode): the successful branch mutates the first referenced message. -/
def scaffoldRetryH (a : CollaboratorAgent) (ctx : GenCtx) (smsgs : Conversation)
    (h : Heap) (r : ConvRef) (calls : List Conversation) :
    Nat → Except PyErr (Option ConvRef) × Heap × List Conversation
  | 0 => (.ok none, h, calls)
  | fuel + 1 =>
    let calls' := calls ++ [smsgs]
    match ctx.gen calls.length with
    | .error e => (.error e, h, calls')
    | .ok raw =>
      let processed := ctx.repairJson raw
      if !(missingKeys ["reasoning", "relevant_notes"] processed).isEmpty then
        scaffoldRetryH a ctx smsgs h r calls' fuel
      else
        match pyGetItem processed "relevant_notes" with
        | .error e => (.error e, h, calls')
        | .ok scaffolded_notes =>
          match r with
          | [] => (.error .indexError, h, calls')
          | i :: _ =>
            let m := heapGet h i
            (.ok (some r),
              heapSet h i { m with content := properNotesInstr ++ scaffolded_notes ++ m.content },
              calls')

/-- Heap version of `add_scaffolding_to_conversation`. -/
def addScaffoldingToConversationH (a : CollaboratorAgent) (ctx : GenCtx)
    (h : Heap) (r : ConvRef) (calls : List Conversation) :
    Except PyErr (Option ConvRef) × Heap × List Conversation :=
  if a.with_proper_scaffolding = false then
    match r with
    | [] => (.error .indexError, h, calls)
    | i :: _ =>
      let m := heapGet h i
      (.ok (some r),
        heapSet h i { m with content := rawNotesInstr ++ pyFormatOpt a.agent_notes ++ m.content },
        calls)
  else
    let conversation_str := getConversationString (derefConv h r)
    let prompt := ctx.properScaffoldingPromptT conversation_str (pyFormatOpt a.agent_notes)
    scaffoldRetryH a ctx [⟨"user", prompt⟩] h r calls a.num_retries

/-- Heap version of the retry loop of `generate_collaborator_response`. -/
def genLoopH (a : CollaboratorAgent) (ctx : GenCtx) (h : Heap) (r : ConvRef)
    (calls : List Conversation) :
    Nat → Except PyErr (Option Repaired) × Heap × List Conversation
  | 0 => (.ok none, h, calls)
  | fuel + 1 =>
    match (if a.with_scaffolding then addScaffoldingToConversationH a ctx h r calls
           else (.ok (some r), h, calls)) with
    | (.error e, h', cs) => (.error e, h', cs)
    | (.ok none, h', cs) => (.error .typeError, h', cs)
    | (.ok (some r'), h', cs) =>
      let messages : Conversation := ⟨"system", a.system_prompt⟩ :: derefConv h' r'
      let cs' := cs ++ [messages]
      match ctx.gen cs.length with
      | .error e => (.error e, h', cs')
      | .ok raw =>
        let processed := ctx.repairJson raw
        if (missingKeys ["reasoning", "response"] processed).isEmpty then
          (.ok (some processed), h', cs')
        else
          genLoopH a ctx h' r' cs' fuel

/-- Heap version of `generate_collaborator_response`: deep-copy the incoming
conversation, then run the retry loop on the copy. -/
def generateCollaboratorResponseH (a : CollaboratorAgent) (ctx : GenCtx)
    (h : Heap) (conversation : ConvRef) :
    Except PyErr (Option Repaired) × Heap × List Conversation :=
  let hc := pyDeepcopy h conversation
  genLoopH a ctx hc.1 hc.2 [] a.num_retries

/-- The response-record key set checked by `generate_collaborator_response`. -/
def responseKeys : List String := ["reasoning", "response"]

/-- The notes-record key set checked by `update_agent_notes`. -/
def notesKeys : List String := ["user_preferences_reasoning", "agent_notes"]

/-- One attempt of `update_agent_notes` fails: the generator raises (caught by
the `except` clause) or the repaired record is missing a required key. -/
def updAttemptFails (ctx : GenCtx) (i : Nat) : Prop :=
  (∃ e, ctx.gen i = .error e) ∨
    (∃ raw, ctx.gen i = .ok raw ∧ missingKeys notesKeys (ctx.repairJson raw) ≠ [])

/-- Iterated injection: `n` stacked copies of the raw-mode injection (instruction plus notes blob)
in front of a content string. -/
def stackedRawNote (notes : Option String) : Nat → String → String
  | 0, c => c
  | n + 1, c => rawNotesInstr ++ pyFormatOpt notes ++ stackedRawNote notes n c

/-! Concrete generator contexts used to witness the theorems. -/

/-- A generator whose repaired output is a plain sentence containing none of
the required keys: every attempt fails validation. -/
def ctxAllInvalid : GenCtx where
  gen := fun _ => .ok "The weather is nice today."
  repairJson := fun s => .str s
  properScaffoldingPromptT := fun hist notes => hist ++ notes
  updateAgentNotesPromptT := fun notes conv => notes ++ conv

/-- A generator that always yields a complete response record. -/
def ctxValidResponse : GenCtx where
  gen := fun _ => .ok "ok"
  repairJson := fun _ => .obj [("reasoning", "chain of thought"), ("response", "final answer")]
  properScaffoldingPromptT := fun hist notes => hist ++ notes
  updateAgentNotesPromptT := fun notes conv => notes ++ conv

/-- A generator that fails validation on its first two attempts and yields a
complete response record on the third. -/
def ctxThirdTry : GenCtx where
  gen := fun i => .ok (if i < 2 then "bad" else "good")
  repairJson := fun s =>
    if s == "good" then .obj [("reasoning", "R"), ("response", "T")] else .str s
  properScaffoldingPromptT := fun hist notes => hist ++ notes
  updateAgentNotesPromptT := fun notes conv => notes ++ conv

/-- A generator whose every call raises a transport/timeout error. -/
def ctxRaises : GenCtx where
  gen := fun _ => .error (.exn "APITimeoutError")
  repairJson := fun s => .str s
  properScaffoldingPromptT := fun hist notes => hist ++ notes
  updateAgentNotesPromptT := fun notes conv => notes ++ conv

/-- A generator that yields a complete notes record on every call. -/
def ctxNotesFirstTry : GenCtx where
  gen := fun _ => .ok "notes"
  repairJson := fun s =>
    if s == "notes" then .obj [("user_preferences_reasoning", "r"), ("agent_notes", "n")]
    else .str s
  properScaffoldingPromptT := fun hist notes => hist ++ notes
  updateAgentNotesPromptT := fun notes conv => notes ++ conv

/-- A generator that raises on its first two calls and yields a complete notes
record on the third. -/
def ctxNotesAfterErrors : GenCtx where
  gen := fun i => if i < 2 then .error (.exn "timeout") else .ok "notes"
  repairJson := fun s =>
    if s == "notes" then .obj [("user_preferences_reasoning", "r"), ("agent_notes", "n")]
    else .str s
  properScaffoldingPromptT := fun hist notes => hist ++ notes
  updateAgentNotesPromptT := fun notes conv => notes ++ conv

/-- The repaired value of the C10 scenario: a plain string (not a mapping)
containing the words of both required keys. -/
def c10Text : String := "my reasoning here informs my response here"

/-- A generator whose raw output is a JSON string literal; `repair_json` with
`return_objects=True` maps a valid JSON string to the Python string itself
(valid JSON in, same structure out). -/
def ctxStrRecord : GenCtx where
  gen := fun _ => .ok ("\"" ++ c10Text ++ "\"")
  repairJson := fun s => if s == "\"" ++ c10Text ++ "\"" then .str c10Text else .str ""
  properScaffoldingPromptT := fun hist notes => hist ++ notes
  updateAgentNotesPromptT := fun notes conv => notes ++ conv

/-! General lemmas. -/

theorem beginsWith_self_append (n t : List Char) : beginsWith n (n ++ t) = true := by
  induction n with
  | nil => rfl
  | cons c cs ih => simp [beginsWith, ih]

theorem hasSub_of_beginsWith (n h : List Char) (hb : beginsWith n h = true) :
    hasSub n h = true := by
  cases h with
  | nil => simpa [hasSub] using hb
  | cons c cs => simp [hasSub, hb]

theorem hasSub_append_left (n x h : List Char) (hh : hasSub n h = true) :
    hasSub n (x ++ h) = true := by
  induction x with
  | nil => simpa using hh
  | cons c cs ih =>
    show hasSub n (c :: (cs ++ h)) = true
    simp [hasSub]
    exact Or.inr ih

theorem pySubstr_middle (n x y : String) : pySubstr n (x ++ n ++ y) = true := by
  have : (x ++ n ++ y).toList = x.toList ++ (n.toList ++ y.toList) := by
    simp [String.toList]
  rw [pySubstr, this]
  exact hasSub_append_left _ _ _
    (hasSub_of_beginsWith _ _ (beginsWith_self_append _ _))

theorem pySubstr_self_append (n y : String) : pySubstr n (n ++ y) = true := by
  have : pySubstr n ("" ++ n ++ y) = true := pySubstr_middle n "" y
  simpa using this

theorem lookup_none_iff_any_eq_false (key : String) (entries : List (String × String)) :
    entries.lookup key = none ↔ entries.any (fun e => e.1 == key) = false := by
  induction entries with
  | nil => simp [List.lookup]
  | cons e es ih =>
    obtain ⟨k, v⟩ := e
    by_cases hk : key = k
    · subst hk; simp [List.lookup]
    · have h1 : (key == k) = false := by simp [hk]
      have h2 : (k == key) = false := by
        simp; exact fun h => hk h.symm
      simp only [List.lookup, h1, List.any_cons, h2, Bool.false_or]
      exact ih

theorem genLoop_success (a : CollaboratorAgent) (ctx : GenCtx)
    (hsc : a.with_scaffolding = false) :
    ∀ (k fuel : Nat) (calls : List Conversation) (conv : Conversation)
      (raws : Nat → String),
      k < fuel →
      (∀ i, i ≤ k → ctx.gen (calls.length + i) = .ok (raws i)) →
      (∀ i, i < k → missingKeys responseKeys (ctx.repairJson (raws i)) ≠ []) →
      missingKeys responseKeys (ctx.repairJson (raws k)) = [] →
      (genLoop a ctx conv calls fuel).1 = .ok (some (ctx.repairJson (raws k))) ∧
        (genLoop a ctx conv calls fuel).2.length = calls.length + (k + 1) := by
  intro k
  induction k with
  | zero =>
    intro fuel calls conv raws hk hok hfail hsucc
    cases fuel with
    | zero => omega
    | succ f =>
      have h0 : ctx.gen calls.length = .ok (raws 0) := by
        simpa using hok 0 (Nat.le_refl 0)
      rw [show missingKeys responseKeys (ctx.repairJson (raws 0)) =
          missingKeys ["reasoning", "response"] (ctx.repairJson (raws 0)) from rfl] at hsucc
      simp [genLoop, hsc, h0, hsucc]
  | succ k ih =>
    intro fuel calls conv raws hk hok hfail hsucc
    cases fuel with
    | zero => omega
    | succ f =>
      have h0 : ctx.gen calls.length = .ok (raws 0) := by
        simpa using hok 0 (Nat.zero_le _)
      have hf0 : missingKeys ["reasoning", "response"] (ctx.repairJson (raws 0)) ≠ [] :=
        hfail 0 (Nat.succ_pos k)
      have hred :
          genLoop a ctx conv calls (f + 1) =
            genLoop a ctx conv (calls ++ [⟨"system", a.system_prompt⟩ :: conv]) f := by
        simp [genLoop, hsc, h0, List.isEmpty_iff, hf0]
      rw [hred]
      have hlen : (calls ++ [(⟨"system", a.system_prompt⟩ : Message) :: conv]).length
          = calls.length + 1 := by simp
      obtain ⟨ih1, ih2⟩ := ih f (calls ++ [⟨"system", a.system_prompt⟩ :: conv]) conv
        (fun i => raws (i + 1)) (by omega)
        (by
          intro i hi
          rw [hlen, show calls.length + 1 + i = calls.length + (i + 1) by omega]
          exact hok (i + 1) (by omega))
        (by intro i hi; exact hfail (i + 1) (by omega))
        hsucc
      refine ⟨ih1, ?_⟩
      rw [ih2, hlen]
      omega

theorem genLoop_exhaust (a : CollaboratorAgent) (ctx : GenCtx)
    (hsc : a.with_scaffolding = false) :
    ∀ (fuel : Nat) (calls : List Conversation) (conv : Conversation),
      (∀ i, i < fuel → ∃ raw, ctx.gen (calls.length + i) = .ok raw ∧
        missingKeys responseKeys (ctx.repairJson raw) ≠ []) →
      (genLoop a ctx conv calls fuel).1 = .ok none ∧
        (genLoop a ctx conv calls fuel).2.length = calls.length + fuel := by
  intro fuel
  induction fuel with
  | zero => intro calls conv _; simp [genLoop]
  | succ f ih =>
    intro calls conv hfail
    obtain ⟨raw, h0, hf0⟩ := hfail 0 (Nat.succ_pos f)
    rw [Nat.add_zero] at h0
    have hf0' : missingKeys ["reasoning", "response"] (ctx.repairJson raw) ≠ [] := hf0
    have hred :
        genLoop a ctx conv calls (f + 1) =
          genLoop a ctx conv (calls ++ [⟨"system", a.system_prompt⟩ :: conv]) f := by
      simp [genLoop, hsc, h0, List.isEmpty_iff, hf0']
    rw [hred]
    have hlen : (calls ++ [(⟨"system", a.system_prompt⟩ : Message) :: conv]).length
        = calls.length + 1 := by simp
    obtain ⟨ih1, ih2⟩ := ih (calls ++ [⟨"system", a.system_prompt⟩ :: conv]) conv
      (by
        intro i hi
        obtain ⟨r, hr, hmr⟩ := hfail (i + 1) (by omega)
        refine ⟨r, ?_, hmr⟩
        rw [hlen, show calls.length + 1 + i = calls.length + (i + 1) by omega]
        exact hr)
    refine ⟨ih1, ?_⟩
    rw [ih2, hlen]
    omega

theorem updateLoop_step (a : CollaboratorAgent) (ctx : GenCtx)
    (msgs : Conversation) (calls : List Conversation) (f : Nat)
    (hfail : updAttemptFails ctx calls.length) :
    updateLoop a ctx msgs calls (f + 1) = updateLoop a ctx msgs (calls ++ [msgs]) f := by
  rcases hfail with ⟨e, he⟩ | ⟨raw, hr, hm⟩
  · simp [updateLoop, he]
  · have hm' : missingKeys ["user_preferences_reasoning", "agent_notes"]
        (ctx.repairJson raw) ≠ [] := hm
    simp [updateLoop, hr, List.isEmpty_iff, hm']

theorem updateLoop_success (a : CollaboratorAgent) (ctx : GenCtx) :
    ∀ (k fuel : Nat) (calls : List Conversation) (msgs : Conversation) (raw : String),
      k < fuel →
      (∀ i, i < k → updAttemptFails ctx (calls.length + i)) →
      ctx.gen (calls.length + k) = .ok raw →
      missingKeys notesKeys (ctx.repairJson raw) = [] →
      (updateLoop a ctx msgs calls fuel).1 = .ok (some (ctx.repairJson raw)) ∧
        (updateLoop a ctx msgs calls fuel).2.length = calls.length + (k + 1) := by
  intro k
  induction k with
  | zero =>
    intro fuel calls msgs raw hk hfail hok hsucc
    cases fuel with
    | zero => omega
    | succ f =>
      rw [Nat.add_zero] at hok
      have hsucc' : missingKeys ["user_preferences_reasoning", "agent_notes"]
          (ctx.repairJson raw) = [] := hsucc
      simp [updateLoop, hok, hsucc']
  | succ k ih =>
    intro fuel calls msgs raw hk hfail hok hsucc
    cases fuel with
    | zero => omega
    | succ f =>
      rw [updateLoop_step a ctx msgs calls f (by simpa using hfail 0 (Nat.succ_pos k))]
      have hlen : (calls ++ [msgs]).length = calls.length + 1 := by simp
      obtain ⟨ih1, ih2⟩ := ih f (calls ++ [msgs]) msgs raw (by omega)
        (by
          intro i hi
          rw [hlen, show calls.length + 1 + i = calls.length + (i + 1) by omega]
          exact hfail (i + 1) (by omega))
        (by
          rw [hlen, show calls.length + 1 + k = calls.length + (k + 1) by omega]
          exact hok)
        hsucc
      refine ⟨ih1, ?_⟩
      rw [ih2, hlen]
      omega

theorem updateLoop_exhaust (a : CollaboratorAgent) (ctx : GenCtx) :
    ∀ (fuel : Nat) (calls : List Conversation) (msgs : Conversation),
      (∀ i, i < fuel → updAttemptFails ctx (calls.length + i)) →
      (updateLoop a ctx msgs calls fuel).1 = .ok none ∧
        (updateLoop a ctx msgs calls fuel).2.length = calls.length + fuel := by
  intro fuel
  induction fuel with
  | zero => intro calls msgs _; simp [updateLoop]
  | succ f ih =>
    intro calls msgs hfail
    rw [updateLoop_step a ctx msgs calls f (by simpa using hfail 0 (Nat.succ_pos f))]
    have hlen : (calls ++ [msgs]).length = calls.length + 1 := by simp
    obtain ⟨ih1, ih2⟩ := ih (calls ++ [msgs]) msgs
      (by
        intro i hi
        rw [hlen, show calls.length + 1 + i = calls.length + (i + 1) by omega]
        exact hfail (i + 1) (by omega))
    refine ⟨ih1, ?_⟩
    rw [ih2, hlen]
    omega

theorem scaffoldRetry_trace (a : CollaboratorAgent) (ctx : GenCtx)
    (smsgs messages : Conversation) :
    ∀ (fuel : Nat) (calls : List Conversation),
      ∃ t, (scaffoldRetry a ctx smsgs messages calls fuel).2 = calls ++ t := by
  intro fuel
  induction fuel with
  | zero => intro calls; exact ⟨[], by simp [scaffoldRetry]⟩
  | succ f ih =>
    intro calls
    cases hg : ctx.gen calls.length with
    | error e => exact ⟨[smsgs], by simp [scaffoldRetry, hg]⟩
    | ok raw =>
      by_cases hm : (missingKeys ["reasoning", "relevant_notes"] (ctx.repairJson raw)).isEmpty
      · cases hpi : pyGetItem (ctx.repairJson raw) "relevant_notes" with
        | error e => exact ⟨[smsgs], by simp [scaffoldRetry, hg, hm, hpi]⟩
        | ok v =>
          cases messages with
          | nil => exact ⟨[smsgs], by simp [scaffoldRetry, hg, hm, hpi]⟩
          | cons m rest => exact ⟨[smsgs], by simp [scaffoldRetry, hg, hm, hpi]⟩
      · obtain ⟨t, ht⟩ := ih (calls ++ [smsgs])
        refine ⟨[smsgs] ++ t, ?_⟩
        simp only [scaffoldRetry, hg, hm, Bool.not_false, if_pos, Bool.not_eq_true']
        rw [ht, List.append_assoc]

theorem addScaffolding_trace (a : CollaboratorAgent) (ctx : GenCtx)
    (messages : Conversation) (calls : List Conversation) :
    ∃ t, (addScaffoldingToConversation a ctx messages calls).2 = calls ++ t := by
  unfold addScaffoldingToConversation
  by_cases hp : a.with_proper_scaffolding = false
  · cases messages with
    | nil => exact ⟨[], by simp [hp]⟩
    | cons m rest => exact ⟨[], by simp [hp]⟩
  · rw [if_neg hp]
    exact scaffoldRetry_trace a ctx _ messages a.num_retries calls

theorem genLoop_trace (a : CollaboratorAgent) (ctx : GenCtx) :
    ∀ (fuel : Nat) (conv : Conversation) (calls : List Conversation),
      ∃ t, (genLoop a ctx conv calls fuel).2 = calls ++ t := by
  intro fuel
  induction fuel with
  | zero => intro conv calls; exact ⟨[], by simp [genLoop]⟩
  | succ f ih =>
    intro conv calls
    rcases hp : (if a.with_scaffolding then addScaffoldingToConversation a ctx conv calls
        else (.ok (some conv), calls)) with ⟨res, cs⟩
    have hts : ∃ ts, cs = calls ++ ts := by
      by_cases hw : a.with_scaffolding
      · obtain ⟨ts, h⟩ := addScaffolding_trace a ctx conv calls
        rw [if_pos hw] at hp
        have h2 := congrArg Prod.snd hp
        simp only at h2
        exact ⟨ts, by rw [← h2, h]⟩
      · rw [if_neg hw] at hp
        cases hp
        exact ⟨[], by simp⟩
    obtain ⟨ts, hts⟩ := hts
    have hbody : ∃ t', (genLoop a ctx conv calls (f + 1)).2 = cs ++ t' := by
      cases res with
      | error e => exact ⟨[], by simp [genLoop, hp]⟩
      | ok o =>
        cases o with
        | none => exact ⟨[], by simp [genLoop, hp]⟩
        | some conv' =>
          cases hg : ctx.gen cs.length with
          | error e =>
            exact ⟨[⟨"system", a.system_prompt⟩ :: conv'], by simp [genLoop, hp, hg]⟩
          | ok raw =>
            by_cases hm : (missingKeys ["reasoning", "response"] (ctx.repairJson raw)).isEmpty
            · exact ⟨[⟨"system", a.system_prompt⟩ :: conv'], by simp [genLoop, hp, hg, hm]⟩
            · obtain ⟨t, ht⟩ := ih conv' (cs ++ [⟨"system", a.system_prompt⟩ :: conv'])
              refine ⟨[⟨"system", a.system_prompt⟩ :: conv'] ++ t, ?_⟩
              simp only [genLoop, hp, hg]
              rw [if_neg (by simp [hm])]
              rw [ht, List.append_assoc]
    obtain ⟨t', ht'⟩ := hbody
    exact ⟨ts ++ t', by rw [ht', hts, List.append_assoc]⟩

theorem stackedRawNote_shift (notes : Option String) (c : String) :
    ∀ n, stackedRawNote notes n (rawNotesInstr ++ pyFormatOpt notes ++ c) =
      stackedRawNote notes (n + 1) c := by
  intro n
  induction n with
  | zero => rfl
  | succ n ih => simp only [stackedRawNote, ih]

theorem genLoop_raw_step (a : CollaboratorAgent) (ctx : GenCtx)
    (hsc : a.with_scaffolding = true) (hp : a.with_proper_scaffolding = false)
    (m : Message) (rest : Conversation) (calls : List Conversation) (f : Nat)
    (raw : String) (hg : ctx.gen calls.length = .ok raw)
    (hm : missingKeys responseKeys (ctx.repairJson raw) ≠ []) :
    genLoop a ctx (m :: rest) calls (f + 1) =
      genLoop a ctx
        ({ m with content := rawNotesInstr ++ pyFormatOpt a.agent_notes ++ m.content } :: rest)
        (calls ++ [⟨"system", a.system_prompt⟩ ::
          { m with content := rawNotesInstr ++ pyFormatOpt a.agent_notes ++ m.content } :: rest])
        f := by
  have hm' : missingKeys ["reasoning", "response"] (ctx.repairJson raw) ≠ [] := hm
  simp [genLoop, addScaffoldingToConversation, hsc, hp, hg, List.isEmpty_iff, hm']

theorem genLoop_raw_stacking (a : CollaboratorAgent) (ctx : GenCtx)
    (hsc : a.with_scaffolding = true) (hp : a.with_proper_scaffolding = false) :
    ∀ (n fuel : Nat) (calls : List Conversation) (m : Message) (rest : Conversation),
      n < fuel →
      (∀ i, i < n → ∃ raw, ctx.gen (calls.length + i) = .ok raw ∧
        missingKeys responseKeys (ctx.repairJson raw) ≠ []) →
      ((genLoop a ctx (m :: rest) calls fuel).2)[calls.length + n]? =
        some (⟨"system", a.system_prompt⟩ ::
          ⟨m.role, stackedRawNote a.agent_notes (n + 1) m.content⟩ :: rest) := by
  intro n
  induction n with
  | zero =>
    intro fuel calls m rest hn hfail
    cases fuel with
    | zero => omega
    | succ f =>
      have hscaff :
          (if a.with_scaffolding then addScaffoldingToConversation a ctx (m :: rest) calls
            else (.ok (some (m :: rest)), calls)) =
          (.ok (some (⟨m.role,
              rawNotesInstr ++ pyFormatOpt a.agent_notes ++ m.content⟩ :: rest)), calls) := by
        simp [hsc, addScaffoldingToConversation, hp]
      cases hg : ctx.gen calls.length with
      | error e =>
        simp only [genLoop, hscaff, hg]
        simp [List.getElem?_append, stackedRawNote]
      | ok raw =>
        by_cases hm : (missingKeys ["reasoning", "response"] (ctx.repairJson raw)).isEmpty
        · simp only [genLoop, hscaff, hg]
          rw [if_pos hm]
          simp [List.getElem?_append, stackedRawNote]
        · simp only [genLoop, hscaff, hg]
          rw [if_neg (by simp [hm])]
          obtain ⟨t, ht⟩ := genLoop_trace a ctx f
            (⟨m.role, rawNotesInstr ++ pyFormatOpt a.agent_notes ++ m.content⟩ :: rest)
            (calls ++ [⟨"system", a.system_prompt⟩ ::
              ⟨m.role, rawNotesInstr ++ pyFormatOpt a.agent_notes ++ m.content⟩ :: rest])
          rw [ht, List.append_assoc]
          have hx : ∀ (x : Conversation) (ys : List Conversation),
              (calls ++ (x :: ys))[calls.length]? = some x := by
            intro x ys
            rw [List.getElem?_append_right (Nat.le_refl _), Nat.sub_self]
            simp
          rw [List.singleton_append, Nat.add_zero, hx]
          simp [stackedRawNote]
  | succ n ih =>
    intro fuel calls m rest hn hfail
    cases fuel with
    | zero => omega
    | succ f =>
      obtain ⟨raw, hg, hm⟩ := hfail 0 (Nat.succ_pos n)
      rw [Nat.add_zero] at hg
      rw [genLoop_raw_step a ctx hsc hp m rest calls f raw hg hm]
      have hlen : (calls ++ [(⟨"system", a.system_prompt⟩ : Message) ::
          { m with content := rawNotesInstr ++ pyFormatOpt a.agent_notes ++ m.content } :: rest]).length
          = calls.length + 1 := by simp
      have := ih f (calls ++ [⟨"system", a.system_prompt⟩ ::
          { m with content := rawNotesInstr ++ pyFormatOpt a.agent_notes ++ m.content } :: rest])
        { m with content := rawNotesInstr ++ pyFormatOpt a.agent_notes ++ m.content } rest
        (by omega)
        (by
          intro i hi
          rw [hlen, show calls.length + 1 + i = calls.length + (i + 1) by omega]
          exact hfail (i + 1) (by omega))
      rw [hlen, show calls.length + 1 + n = calls.length + (n + 1) by omega] at this
      rw [this]
      simp only [stackedRawNote_shift]

theorem heapGet_set_ne (h : Heap) (i j : Nat) (m : Message) (hij : i ≠ j) :
    heapGet (heapSet h i m) j = heapGet h j := by
  unfold heapGet heapSet
  rw [List.getD, List.getD, List.get?_eq_getElem?, List.get?_eq_getElem?,
    List.getElem?_set_ne hij]

theorem scaffoldRetryH_spec (a : CollaboratorAgent) (ctx : GenCtx)
    (smsgs : Conversation) (r : ConvRef) (N : Nat) (hr : ∀ i ∈ r, N ≤ i) :
    ∀ (fuel : Nat) (h : Heap) (calls : List Conversation),
      (∀ j, j < N →
        heapGet ((scaffoldRetryH a ctx smsgs h r calls fuel).2.1) j = heapGet h j) ∧
      (∀ r', (scaffoldRetryH a ctx smsgs h r calls fuel).1 = .ok (some r') → r' = r) := by
  intro fuel
  induction fuel with
  | zero =>
    intro h calls
    exact ⟨fun j _ => by simp [scaffoldRetryH], fun r' hr' => by simp [scaffoldRetryH] at hr'⟩
  | succ f ih =>
    intro h calls
    cases hg : ctx.gen calls.length with
    | error e =>
      exact ⟨fun j _ => by simp [scaffoldRetryH, hg],
        fun r' hr' => by simp [scaffoldRetryH, hg] at hr'⟩
    | ok raw =>
      by_cases hm : (missingKeys ["reasoning", "relevant_notes"] (ctx.repairJson raw)).isEmpty
      · cases hpi : pyGetItem (ctx.repairJson raw) "relevant_notes" with
        | error e =>
          exact ⟨fun j _ => by simp [scaffoldRetryH, hg, hm, hpi],
            fun r' hr' => by simp [scaffoldRetryH, hg, hm, hpi] at hr'⟩
        | ok v =>
          cases hrr : r with
          | nil =>
            exact ⟨fun j _ => by simp [scaffoldRetryH, hg, hm, hpi, hrr],
              fun r' hr' => by simp [scaffoldRetryH, hg, hm, hpi, hrr] at hr'⟩
          | cons i rest =>
            constructor
            · intro j hj
              have hiN : N ≤ i := hr i (by rw [hrr]; exact List.mem_cons_self i rest)
              have hij : i ≠ j := by omega
              simp only [scaffoldRetryH, hg, hm, hpi, hrr, Bool.not_true, Bool.false_eq_true,
                if_false]
              exact heapGet_set_ne h i j _ hij
            · intro r' hr'
              simp only [scaffoldRetryH, hg, hm, hpi, hrr, Bool.not_true, Bool.false_eq_true,
                if_false] at hr'
              cases hr'
              rfl
      · have := ih h (calls ++ [smsgs])
        constructor
        · intro j hj
          have hred : scaffoldRetryH a ctx smsgs h r calls (f + 1)
              = scaffoldRetryH a ctx smsgs h r (calls ++ [smsgs]) f := by
            simp only [scaffoldRetryH, hg]
            rw [if_pos (by simp [hm])]
          rw [hred]
          exact this.1 j hj
        · intro r' hr'
          have hred : scaffoldRetryH a ctx smsgs h r calls (f + 1)
              = scaffoldRetryH a ctx smsgs h r (calls ++ [smsgs]) f := by
            simp only [scaffoldRetryH, hg]
            rw [if_pos (by simp [hm])]
          rw [hred] at hr'
          exact this.2 r' hr'

theorem addScaffoldingH_spec (a : CollaboratorAgent) (ctx : GenCtx)
    (h : Heap) (r : ConvRef) (calls : List Conversation) (N : Nat)
    (hr : ∀ i ∈ r, N ≤ i) :
    (∀ j, j < N →
      heapGet ((addScaffoldingToConversationH a ctx h r calls).2.1) j = heapGet h j) ∧
    (∀ r', (addScaffoldingToConversationH a ctx h r calls).1 = .ok (some r') → r' = r) := by
  unfold addScaffoldingToConversationH
  by_cases hp : a.with_proper_scaffolding = false
  · rw [if_pos hp]
    cases hrr : r with
    | nil =>
      exact ⟨fun j _ => by simp, fun r' hr' => by simp at hr'⟩
    | cons i rest =>
      constructor
      · intro j hj
        have hiN : N ≤ i := hr i (by rw [hrr]; exact List.mem_cons_self i rest)
        exact heapGet_set_ne h i j _ (by omega)
      · intro r' hr'
        simp only at hr'
        cases hr'
        rfl
  · rw [if_neg hp]
    exact scaffoldRetryH_spec a ctx _ r N hr a.num_retries h calls

theorem genLoopH_frame (a : CollaboratorAgent) (ctx : GenCtx) (N : Nat) :
    ∀ (fuel : Nat) (h : Heap) (r : ConvRef) (calls : List Conversation),
      (∀ i ∈ r, N ≤ i) →
      ∀ j, j < N → heapGet ((genLoopH a ctx h r calls fuel).2.1) j = heapGet h j := by
  intro fuel
  induction fuel with
  | zero => intro h r calls _ j _; simp [genLoopH]
  | succ f ih =>
    intro h r calls hr j hj
    rcases hp : (if a.with_scaffolding then addScaffoldingToConversationH a ctx h r calls
        else (.ok (some r), h, calls)) with ⟨res, h', cs⟩
    have hspec :
        (∀ j, j < N → heapGet h' j = heapGet h j) ∧
        (∀ r', res = .ok (some r') → r' = r) := by
      by_cases hw : a.with_scaffolding
      · rw [if_pos hw] at hp
        have := addScaffoldingH_spec a ctx h r calls N hr
        rw [hp] at this
        exact this
      · rw [if_neg hw] at hp
        cases hp
        exact ⟨fun j _ => rfl, fun r' hr' => by cases hr'; rfl⟩
    cases res with
    | error e =>
      simp only [genLoopH, hp]
      exact hspec.1 j hj
    | ok o =>
      cases o with
      | none =>
        simp only [genLoopH, hp]
        exact hspec.1 j hj
      | some r' =>
        have hr' : r' = r := hspec.2 r' rfl
        subst hr'
        cases hg : ctx.gen cs.length with
        | error e =>
          simp only [genLoopH, hp, hg]
          exact hspec.1 j hj
        | ok raw =>
          by_cases hm : (missingKeys ["reasoning", "response"] (ctx.repairJson raw)).isEmpty
          · simp only [genLoopH, hp, hg]
            rw [if_pos hm]
            exact hspec.1 j hj
          · simp only [genLoopH, hp, hg]
            rw [if_neg (by simp [hm])]
            rw [ih h' r' (cs ++ [⟨"system", a.system_prompt⟩ :: derefConv h' r']) hr j hj]
            exact hspec.1 j hj

/-! Claim theorems.  The second component of each modelled function is the
chronological list of message lists passed to the generator, so its length is
the number of generator invocations. -/

/-- C1: for every produce function that fails validation on its first `k`
attempts (`k < R`) and yields a record containing all required keys on attempt
`k+1`, the retry loops of `generate_collaborator_response` (scaffolding off,
so the loop's produce function is exactly one generator call per attempt) and
of `update_agent_notes` return that record and invoke the generator exactly
`k+1` times; a produce function that never yields a valid record is invoked
exactly `R = num_retries` times and the loop returns `None`. -/
theorem c1_retry_controller :
    (∀ (a : CollaboratorAgent) (ctx : GenCtx) (conv : Conversation)
        (raws : Nat → String) (k : Nat),
      a.with_scaffolding = false → k < a.num_retries →
      (∀ i, i ≤ k → ctx.gen i = .ok (raws i)) →
      (∀ i, i < k → missingKeys responseKeys (ctx.repairJson (raws i)) ≠ []) →
      missingKeys responseKeys (ctx.repairJson (raws k)) = [] →
      (generateCollaboratorResponse a ctx conv).1 = .ok (some (ctx.repairJson (raws k))) ∧
        (generateCollaboratorResponse a ctx conv).2.length = k + 1) ∧
    (∀ (a : CollaboratorAgent) (ctx : GenCtx) (conv : Conversation)
        (raws : Nat → String),
      a.with_scaffolding = false →
      (∀ i, i < a.num_retries → ctx.gen i = .ok (raws i) ∧
        missingKeys responseKeys (ctx.repairJson (raws i)) ≠ []) →
      (generateCollaboratorResponse a ctx conv).1 = .ok none ∧
        (generateCollaboratorResponse a ctx conv).2.length = a.num_retries) ∧
    (∀ (a : CollaboratorAgent) (ctx : GenCtx) (notes : String) (conv : Conversation)
        (raws : Nat → String) (k : Nat),
      k < a.num_retries →
      (∀ i, i ≤ k → ctx.gen i = .ok (raws i)) →
      (∀ i, i < k → missingKeys notesKeys (ctx.repairJson (raws i)) ≠ []) →
      missingKeys notesKeys (ctx.repairJson (raws k)) = [] →
      (updateAgentNotes a ctx notes conv).1 = .ok (some (ctx.repairJson (raws k))) ∧
        (updateAgentNotes a ctx notes conv).2.length = k + 1) ∧
    (∀ (a : CollaboratorAgent) (ctx : GenCtx) (notes : String) (conv : Conversation)
        (raws : Nat → String),
      (∀ i, i < a.num_retries → ctx.gen i = .ok (raws i) ∧
        missingKeys notesKeys (ctx.repairJson (raws i)) ≠ []) →
      (updateAgentNotes a ctx notes conv).1 = .ok none ∧
        (updateAgentNotes a ctx notes conv).2.length = a.num_retries) := by
  refine ⟨?_, ?_, ?_, ?_⟩
  · intro a ctx conv raws k hsc hk hok hfail hsucc
    have := genLoop_success a ctx hsc k a.num_retries [] conv raws hk
      (by simpa using hok) hfail hsucc
    unfold generateCollaboratorResponse
    simpa using this
  · intro a ctx conv raws hsc hfail
    have := genLoop_exhaust a ctx hsc a.num_retries [] conv
      (by
        intro i hi
        refine ⟨raws i, ?_, (hfail i hi).2⟩
        simpa using (hfail i hi).1)
    unfold generateCollaboratorResponse
    simpa using this
  · intro a ctx notes conv raws k hk hok hfail hsucc
    have := updateLoop_success a ctx k a.num_retries []
      [⟨"user", ctx.updateAgentNotesPromptT notes (getConversationString conv)⟩] (raws k) hk
      (by
        intro i hi
        exact Or.inr ⟨raws i, by simpa using hok i (by omega), hfail i hi⟩)
      (by simpa using hok k (Nat.le_refl k)) hsucc
    unfold updateAgentNotes
    simpa using this
  · intro a ctx notes conv raws hfail
    have := updateLoop_exhaust a ctx a.num_retries []
      [⟨"user", ctx.updateAgentNotesPromptT notes (getConversationString conv)⟩]
      (by
        intro i hi
        exact Or.inr ⟨raws i, by simpa using (hfail i hi).1, (hfail i hi).2⟩)
    unfold updateAgentNotes
    simpa using this

/-- Witness for C1: with the default retry budget of 10, a generator failing
its first two attempts succeeds on the third with exactly 3 invocations, and
an always-failing generator is invoked exactly 10 times, for both the
response loop and the notes loop. -/
theorem c1_retry_controller_witness :
    ((generateCollaboratorResponse { } ctxThirdTry [⟨"user", "hi"⟩]).1
        = .ok (some (.obj [("reasoning", "R"), ("response", "T")])) ∧
      (generateCollaboratorResponse { } ctxThirdTry [⟨"user", "hi"⟩]).2.length = 3) ∧
    ((generateCollaboratorResponse { } ctxAllInvalid [⟨"user", "hi"⟩]).1 = .ok none ∧
      (generateCollaboratorResponse { } ctxAllInvalid [⟨"user", "hi"⟩]).2.length = 10) ∧
    ((updateAgentNotes { } ctxNotesFirstTry "old" [⟨"user", "hi"⟩]).1
        = .ok (some (.obj [("user_preferences_reasoning", "r"), ("agent_notes", "n")])) ∧
      (updateAgentNotes { } ctxNotesFirstTry "old" [⟨"user", "hi"⟩]).2.length = 1) ∧
    ((updateAgentNotes { } ctxAllInvalid "old" [⟨"user", "hi"⟩]).1 = .ok none ∧
      (updateAgentNotes { } ctxAllInvalid "old" [⟨"user", "hi"⟩]).2.length = 10) := by
  refine ⟨?_, ?_, ?_, ?_⟩
  · exact c1_retry_controller.1 { } ctxThirdTry [⟨"user", "hi"⟩]
      (fun i => if i < 2 then "bad" else "good") 2 rfl (by decide)
      (fun i _ => rfl) (by decide) (by decide)
  · exact c1_retry_controller.2.1 { } ctxAllInvalid [⟨"user", "hi"⟩]
      (fun _ => "The weather is nice today.") rfl
      (fun i _ => ⟨rfl, by
        show missingKeys responseKeys
          (ctxAllInvalid.repairJson "The weather is nice today.") ≠ []
        decide⟩)
  · exact c1_retry_controller.2.2.1 { } ctxNotesFirstTry "old" [⟨"user", "hi"⟩]
      (fun _ => "notes") 0 (by decide) (fun i _ => rfl) (by omega) (by decide)
  · exact c1_retry_controller.2.2.2 { } ctxAllInvalid "old" [⟨"user", "hi"⟩]
      (fun _ => "The weather is nice today.")
      (fun i _ => ⟨rfl, by
        show missingKeys notesKeys
          (ctxAllInvalid.repairJson "The weather is nice today.") ≠ []
        decide⟩)

/-- C2 (code bug evidence): when model-mediated scaffolding exhausts its retry
budget, `add_scaffolding_to_conversation` falls off its loop and returns
`None`; the next statement of `generate_collaborator_response`,
`[system_message] + None`, then raises a `TypeError` — the turn does NOT
proceed with the un-augmented conversation as the spec requires.  Shown here
on a proper-scaffolding agent whose scaffolding generator never produces the
required `reasoning`/`relevant_notes` keys. -/
theorem c2_proper_scaffolding_exhaustion_crashes :
    (generateCollaboratorResponse
        { agent_notes := some "User prefers Python.", with_scaffolding := true,
          with_proper_scaffolding := true }
        ctxAllInvalid [⟨"user", "hi"⟩]).1 = .error .typeError := by
  rfl

/-- C3: when every attempt of `update_agent_notes` fails (a raised generator
error or a record missing a required key), the method returns `None`, and the
caller's notes-update step in `show_survey_interface` leaves the stored
`agent_notes` value unchanged. -/
theorem c3_failed_consolidation_preserves_notes
    (a : CollaboratorAgent) (ctx : GenCtx) (stored notesArg : String)
    (conversation : Conversation)
    (hfail : ∀ i, i < a.num_retries → updAttemptFails ctx i) :
    (updateAgentNotes a ctx notesArg conversation).1 = .ok none ∧
      surveyNotesStep a ctx stored conversation = .ok stored := by
  have h1 : ∀ nArg : String, (updateAgentNotes a ctx nArg conversation).1 = .ok none := by
    intro nArg
    unfold updateAgentNotes
    exact (updateLoop_exhaust a ctx a.num_retries [] _ (by simpa using hfail)).1
  refine ⟨h1 notesArg, ?_⟩
  simp only [surveyNotesStep]
  by_cases hs : (stored == "") = true
  · rw [if_pos hs, h1 initialNotesText]
  · rw [if_neg hs, h1 stored]

/-- Witness for C3: an always-failing consolidation leaves the stored notes
`"old notes"` untouched. -/
theorem c3_failed_consolidation_preserves_notes_witness :
    (updateAgentNotes { } ctxAllInvalid "old notes" [⟨"user", "hi"⟩]).1 = .ok none ∧
      surveyNotesStep { } ctxAllInvalid "old notes" [⟨"user", "hi"⟩] = .ok "old notes" :=
  c3_failed_consolidation_preserves_notes { } ctxAllInvalid "old notes" "old notes"
    [⟨"user", "hi"⟩]
    (fun i _ => Or.inr ⟨"The weather is nice today.", rfl, by
      show missingKeys notesKeys
        (ctxAllInvalid.repairJson "The weather is nice today.") ≠ []
      decide⟩)

/-- C4 counterexample: `generate_collaborator_response` does not return only
the `response` text — it returns the whole extracted record, whose `reasoning`
key is still present in the caller-visible return value. -/
theorem c4_returns_full_record :
    (generateCollaboratorResponse { } ctxValidResponse [⟨"user", "hi"⟩]).1
        = .ok (some (.obj [("reasoning", "chain of thought"), ("response", "final answer")])) ∧
    pyIn "reasoning"
      (.obj [("reasoning", "chain of thought"), ("response", "final answer")]) = true := by
  exact ⟨rfl, rfl⟩

/-- C4 amended: `generate_collaborator_response` returns the full record; it
is the caller (`show_study_interface`) that surfaces only the `response`
field's text as the user-visible message, discarding `reasoning`. -/
theorem c4_caller_surfaces_response_only
    (a : CollaboratorAgent) (ctx : GenCtx) (conv : Conversation)
    (entries : List (String × String)) (v : String)
    (hrun : (generateCollaboratorResponse a ctx conv).1 = .ok (some (.obj entries)))
    (hv : entries.lookup "response" = some v) :
    callerResponseText (some (.obj entries)) = .ok v := by
  have hin : pyIn "response" (.obj entries) = true := by
    rcases h : (entries.any fun e => e.1 == "response") with _ | _
    · exact absurd ((lookup_none_iff_any_eq_false "response" entries).2 h)
        (by rw [hv]; exact fun h' => Option.noConfusion h')
    · simpa [pyIn] using h
  have hne : entries.isEmpty = false := by
    cases entries with
    | nil => simp [List.lookup] at hv
    | cons e es => rfl
  simp only [callerResponseText, pyTruthy, hne, hin, Bool.not_false, Bool.and_self, if_pos]
  simp [pyGetItem, hv]

/-- Witness for C4 amended: a run returning a full record whose `response`
value is `"final answer"` makes the caller display exactly `"final answer"`. -/
theorem c4_caller_surfaces_response_only_witness :
    callerResponseText
      (some (.obj [("reasoning", "chain of thought"), ("response", "final answer")]))
      = .ok "final answer" :=
  c4_caller_surfaces_response_only { } ctxValidResponse [⟨"user", "hi"⟩]
    [("reasoning", "chain of thought"), ("response", "final answer")] "final answer"
    rfl rfl

/-- C5 counterexample: the retry loop of `generate_collaborator_response` has
no `try`/`except`, so a transport/timeout error raised by the generator call
on the very first attempt propagates out of the loop as an exception instead
of being treated as a failed attempt. -/
theorem c5_generator_error_propagates :
    (generateCollaboratorResponse { } ctxRaises [⟨"user", "hi"⟩]).1
      = .error (.exn "APITimeoutError") := by
  rfl

/-- C5 amended: only `update_agent_notes` wraps its loop body in
`try`/`except`, so there a raised generator error is a logged failed attempt
followed by a fresh retry; in `generate_collaborator_response` only extraction
failures are retried, and a generator error propagates out of the loop. -/
theorem c5_update_catches_generate_propagates :
    (∀ (a : CollaboratorAgent) (ctx : GenCtx) (notes : String) (conv : Conversation)
        (k : Nat) (raw : String),
      k < a.num_retries →
      (∀ i, i < k → ∃ e, ctx.gen i = .error e) →
      ctx.gen k = .ok raw →
      missingKeys notesKeys (ctx.repairJson raw) = [] →
      (updateAgentNotes a ctx notes conv).1 = .ok (some (ctx.repairJson raw)) ∧
        (updateAgentNotes a ctx notes conv).2.length = k + 1) ∧
    (∀ (a : CollaboratorAgent) (ctx : GenCtx) (conv : Conversation) (e : PyErr),
      a.with_scaffolding = false → 0 < a.num_retries →
      ctx.gen 0 = .error e →
      (generateCollaboratorResponse a ctx conv).1 = .error e) := by
  constructor
  · intro a ctx notes conv k raw hk herr hok hsucc
    have := updateLoop_success a ctx k a.num_retries []
      [⟨"user", ctx.updateAgentNotesPromptT notes (getConversationString conv)⟩] raw hk
      (by
        intro i hi
        exact Or.inl (by simpa using herr i hi))
      (by simpa using hok) hsucc
    unfold updateAgentNotes
    simpa using this
  · intro a ctx conv e hsc hpos hg
    unfold generateCollaboratorResponse
    cases hn : a.num_retries with
    | zero => omega
    | succ n => simp [genLoop, hsc, hg]

/-- Witness for C5 amended: a generator raising on its first two calls still
lets `update_agent_notes` succeed on the third attempt, while the same kind of
error on the first call of `generate_collaborator_response` escapes as an
exception. -/
theorem c5_update_catches_generate_propagates_witness :
    ((updateAgentNotes { } ctxNotesAfterErrors "old" [⟨"user", "hi"⟩]).1
        = .ok (some (.obj [("user_preferences_reasoning", "r"), ("agent_notes", "n")])) ∧
      (updateAgentNotes { } ctxNotesAfterErrors "old" [⟨"user", "hi"⟩]).2.length = 3) ∧
    (generateCollaboratorResponse { } ctxRaises [⟨"user", "hi"⟩]).1
        = .error (.exn "APITimeoutError") := by
  constructor
  · exact c5_update_catches_generate_propagates.1 { } ctxNotesAfterErrors "old"
      [⟨"user", "hi"⟩] 2 "notes" (by decide)
      (fun i hi => ⟨.exn "timeout", by
        show ctxNotesAfterErrors.gen i = .error (.exn "timeout")
        show (if i < 2 then Except.error (PyErr.exn "timeout") else Except.ok "notes")
          = .error (.exn "timeout")
        rw [if_pos hi]⟩)
      rfl (by decide)
  · exact c5_update_catches_generate_propagates.2 { } ctxRaises [⟨"user", "hi"⟩]
      (.exn "APITimeoutError") rfl (by decide) rfl

/-- C6: the extraction step computes the missing required keys exactly — over
a repaired mapping, a key is reported missing iff it is absent at top level —
and the enclosing loops reject the record in full exactly when that list is
non-empty: they either return the record (all keys present) or discard the
attempt and retry, never raising an exception at this step. -/
theorem c6_missing_keys_exact :
    (∀ (required : List String) (entries : List (String × String)) (key : String),
      key ∈ missingKeys required (.obj entries) ↔
        key ∈ required ∧ entries.lookup key = none) ∧
    (∀ (a : CollaboratorAgent) (ctx : GenCtx) (conv : Conversation)
        (calls : List Conversation) (f : Nat) (raw : String),
      a.with_scaffolding = false → ctx.gen calls.length = .ok raw →
      (missingKeys responseKeys (ctx.repairJson raw) = [] →
        genLoop a ctx conv calls (f + 1) =
          (.ok (some (ctx.repairJson raw)), calls ++ [⟨"system", a.system_prompt⟩ :: conv])) ∧
      (missingKeys responseKeys (ctx.repairJson raw) ≠ [] →
        genLoop a ctx conv calls (f + 1) =
          genLoop a ctx conv (calls ++ [⟨"system", a.system_prompt⟩ :: conv]) f)) ∧
    (∀ (a : CollaboratorAgent) (ctx : GenCtx) (msgs : Conversation)
        (calls : List Conversation) (f : Nat) (raw : String),
      ctx.gen calls.length = .ok raw →
      (missingKeys notesKeys (ctx.repairJson raw) = [] →
        updateLoop a ctx msgs calls (f + 1) =
          (.ok (some (ctx.repairJson raw)), calls ++ [msgs])) ∧
      (missingKeys notesKeys (ctx.repairJson raw) ≠ [] →
        updateLoop a ctx msgs calls (f + 1) = updateLoop a ctx msgs (calls ++ [msgs]) f)) := by
  refine ⟨?_, ?_, ?_⟩
  · intro required entries key
    simp only [missingKeys, List.mem_filter, Bool.not_eq_true', pyIn]
    constructor
    · rintro ⟨h1, h2⟩
      exact ⟨h1, (lookup_none_iff_any_eq_false key entries).2 h2⟩
    · rintro ⟨h1, h2⟩
      exact ⟨h1, (lookup_none_iff_any_eq_false key entries).1 h2⟩
  · intro a ctx conv calls f raw hsc hg
    constructor
    · intro hm
      have hm' : missingKeys ["reasoning", "response"] (ctx.repairJson raw) = [] := hm
      simp [genLoop, hsc, hg, hm']
    · intro hm
      have hm' : missingKeys ["reasoning", "response"] (ctx.repairJson raw) ≠ [] := hm
      simp [genLoop, hsc, hg, List.isEmpty_iff, hm']
  · intro a ctx msgs calls f raw hg
    constructor
    · intro hm
      have hm' : missingKeys ["user_preferences_reasoning", "agent_notes"]
          (ctx.repairJson raw) = [] := hm
      simp [updateLoop, hg, hm']
    · intro hm
      have hm' : missingKeys ["user_preferences_reasoning", "agent_notes"]
          (ctx.repairJson raw) ≠ [] := hm
      simp [updateLoop, hg, List.isEmpty_iff, hm']

/-- Witness for C6: over the record `{"response": "x"}`, exactly the key
`reasoning` is missing; an attempt with that record is rejected in full and
the loop retries, while a complete record is returned as-is. -/
theorem c6_missing_keys_exact_witness :
    ("reasoning" ∈ missingKeys responseKeys (.obj [("response", "x")]) ↔
      "reasoning" ∈ responseKeys ∧ [("response", "x")].lookup "reasoning" = none) ∧
    genLoop { } ctxValidResponse [⟨"user", "hi"⟩] [] 10 =
      (.ok (some (.obj [("reasoning", "chain of thought"), ("response", "final answer")])),
        [[⟨"system", ""⟩, ⟨"user", "hi"⟩]]) ∧
    genLoop { } ctxAllInvalid [⟨"user", "hi"⟩] [] 10 =
      genLoop { } ctxAllInvalid [⟨"user", "hi"⟩] [[⟨"system", ""⟩, ⟨"user", "hi"⟩]] 9 := by
  refine ⟨c6_missing_keys_exact.1 responseKeys [("response", "x")] "reasoning", ?_, ?_⟩
  · exact (c6_missing_keys_exact.2.1 { } ctxValidResponse [⟨"user", "hi"⟩] [] 9 "ok"
      rfl rfl).1 (by decide)
  · exact (c6_missing_keys_exact.2.1 { } ctxAllInvalid [⟨"user", "hi"⟩] []
      9 "The weather is nice today." rfl rfl).2 (by decide)

/-- C7: `generate_collaborator_response` deep-copies the incoming
conversation, so every message object the caller's conversation references is
unchanged after the call — for every agent configuration, generator behaviour
and number of retries, including crashing runs. -/
theorem c7_deepcopy_never_mutates_caller
    (a : CollaboratorAgent) (ctx : GenCtx) (h : Heap) (r : ConvRef)
    (hv : ∀ i ∈ r, i < h.length) :
    ∀ i ∈ r, heapGet ((generateCollaboratorResponseH a ctx h r).2.1) i = heapGet h i := by
  intro i hi
  unfold generateCollaboratorResponseH pyDeepcopy
  have hfresh : ∀ j ∈ List.range' h.length r.length, h.length ≤ j := by
    intro j hj
    rw [List.mem_range'_1] at hj
    exact hj.1
  have hframe := genLoopH_frame a ctx h.length a.num_retries
    (h ++ derefConv h r) (List.range' h.length r.length) [] hfresh i (hv i hi)
  simp only at hframe ⊢
  rw [hframe]
  unfold heapGet
  rw [List.getD, List.getD, List.get?_eq_getElem?, List.get?_eq_getElem?,
    List.getElem?_append, if_pos (hv i hi)]

/-- Witness for C7: a raw-scaffolding run that repeatedly mutates its working
copy leaves the caller's single message object untouched. -/
theorem c7_deepcopy_never_mutates_caller_witness :
    heapGet ((generateCollaboratorResponseH
        { agent_notes := some "N", with_scaffolding := true }
        ctxAllInvalid [⟨"user", "orig"⟩] [0]).2.1) 0
      = heapGet [⟨"user", "orig"⟩] 0 :=
  c7_deepcopy_never_mutates_caller
    { agent_notes := some "N", with_scaffolding := true }
    ctxAllInvalid [⟨"user", "orig"⟩] [0] (by decide) 0 (by decide)

/-- C8 counterexample: on an empty conversation, raw-mode scaffolding is not
failure-free — `messages[0]["content"] = ...` raises an `IndexError`. -/
theorem c8_raw_scaffolding_empty_conversation :
    addScaffoldingToConversation
        { agent_notes := some "Prefers Python.", with_scaffolding := true }
        ctxAllInvalid [] []
      = (.error .indexError, []) := by
  rfl

/-- C8 amended: for every notes blob and every conversation with at least one
message, raw-mode scaffolding returns the conversation whose first content is
exactly the fixed injection instruction followed by the notes blob followed by
the old content — hence it contains both the instruction text and the notes
verbatim — and it makes no generator call and cannot fail. -/
theorem c8_raw_scaffolding_injects_notes
    (a : CollaboratorAgent) (ctx : GenCtx) (notes : String)
    (m : Message) (rest : Conversation) (calls : List Conversation)
    (hp : a.with_proper_scaffolding = false) (hn : a.agent_notes = some notes) :
    addScaffoldingToConversation a ctx (m :: rest) calls =
      (.ok (some (⟨m.role, rawNotesInstr ++ notes ++ m.content⟩ :: rest)), calls) ∧
    pySubstr rawNotesInstr (rawNotesInstr ++ notes ++ m.content) = true ∧
    pySubstr notes (rawNotesInstr ++ notes ++ m.content) = true := by
  refine ⟨?_, ?_, pySubstr_middle _ _ _⟩
  · simp [addScaffoldingToConversation, hp, hn, pyFormatOpt]
  · rw [String.append_assoc]
    exact pySubstr_self_append _ _

/-- Witness for C8 amended: with notes `"Prefers Python."` and first content
`"hi"`, raw scaffolding augments the message and makes no generator call. -/
theorem c8_raw_scaffolding_injects_notes_witness :
    addScaffoldingToConversation
        { agent_notes := some "Prefers Python.", with_scaffolding := true }
        ctxAllInvalid [⟨"user", "hi"⟩] []
      = (.ok (some [⟨"user", rawNotesInstr ++ "Prefers Python." ++ "hi"⟩]), []) ∧
    pySubstr rawNotesInstr (rawNotesInstr ++ "Prefers Python." ++ "hi") = true ∧
    pySubstr "Prefers Python." (rawNotesInstr ++ "Prefers Python." ++ "hi") = true :=
  c8_raw_scaffolding_injects_notes
    { agent_notes := some "Prefers Python.", with_scaffolding := true }
    ctxAllInvalid "Prefers Python." ⟨"user", "hi"⟩ [] [] rfl rfl

/-- C9: scaffolding application inside the retry loop is not idempotent — in
raw mode, after `n` failed extraction attempts the conversation sent to the
generator on attempt `n+1` carries `n+1` stacked copies of the injection
(instruction text plus notes) in front of the first message's content. -/
theorem c9_scaffolding_stacks_on_retries
    (a : CollaboratorAgent) (ctx : GenCtx) (m : Message) (rest : Conversation) (n : Nat)
    (hsc : a.with_scaffolding = true) (hp : a.with_proper_scaffolding = false)
    (hn : n < a.num_retries)
    (hfail : ∀ i, i < n → ∃ raw, ctx.gen i = .ok raw ∧
      missingKeys responseKeys (ctx.repairJson raw) ≠ []) :
    ((generateCollaboratorResponse a ctx (m :: rest)).2)[n]? =
      some (⟨"system", a.system_prompt⟩ ::
        ⟨m.role, stackedRawNote a.agent_notes (n + 1) m.content⟩ :: rest) := by
  unfold generateCollaboratorResponse
  have := genLoop_raw_stacking a ctx hsc hp n a.num_retries [] m rest hn
    (by simpa using hfail)
  simpa using this

/-- Witness for C9: after two failed attempts, the third generator call sees
three stacked copies of the injection in front of the original `"hi"`. -/
theorem c9_scaffolding_stacks_on_retries_witness :
    ((generateCollaboratorResponse { agent_notes := some "N", with_scaffolding := true }
        ctxAllInvalid [⟨"user", "hi"⟩]).2)[2]? =
      some [⟨"system", ""⟩, ⟨"user", stackedRawNote (some "N") 3 "hi"⟩] :=
  c9_scaffolding_stacks_on_retries
    { agent_notes := some "N", with_scaffolding := true }
    ctxAllInvalid ⟨"user", "hi"⟩ [] 2 rfl rfl (by decide)
    (fun i _ => ⟨"The weather is nice today.", rfl, by
      show missingKeys responseKeys
        (ctxAllInvalid.repairJson "The weather is nice today.") ≠ []
      decide⟩)

/-- C10: required-key validation is Python membership, which on a repaired
value that is a plain string degrades to substring containment — a generator
output repaired to the string `"my reasoning here informs my response here"`
(not a key-value record) passes validation, `generate_collaborator_response`
returns that string as the record, and the caller's `"response" in result`
check has the same substring semantics (while `result["response"]` on it would
raise a `TypeError`). -/
theorem c10_substring_validation_accepts_plain_string :
    (generateCollaboratorResponse { } ctxStrRecord [⟨"user", "hi"⟩]).1
        = .ok (some (.str c10Text)) ∧
    missingKeys responseKeys (.str c10Text) = [] ∧
    pyIn "reasoning" (.str c10Text) = true ∧
    pyIn "response" (.str c10Text) = true ∧
    pyGetItem (.str c10Text) "response" = .error .typeError := by
  exact ⟨rfl, by decide, by decide, by decide, rfl⟩

end CollabStudy
